import Mathlib

/-!
Shallow embedding of the checklist bot's state/reconciliation core.

The embedding covers two source variants:
* the group variant (`src/unnamed/part_009`): `getState`, `uncheckAll`,
  `canUserAdd`, and the `/add`, `/done`, `/remove`, `/clear` handlers;
* the first variant in `src/checklist.js` (its `/clear` handler sets the
  scope's list to `[]`), and the DM duty variant in the same file
  (`getUserState`, the DM message handler over `BASE_ITEMS`).

Machine integers are modelled as `Int`/`Nat`; the JS `parseInt` is modelled
by `parseIntJs`, returning `none` where JS produces `NaN`.  File-system
effects (`loadData`/`saveData`) are modelled by an explicit `FS` record
whose file contents are abstracted to "what they parse to".
-/

namespace Checklist

/-- A checklist entry `{ text, done }`. -/
structure Item where
  text : String
  done : Bool
deriving Repr, DecidableEq, Inhabited

/-- Canonical per-scope record of part_009:
`{ items: [{text, done}], allow: [userId], removeMode: boolean }`. -/
structure ScopeState where
  items : List Item
  allow : List Int
  removeMode : Bool
deriving Repr, DecidableEq, Inhabited

/-- Shapes a scope's stored value can take in the JSON document:
either the legacy bare array of items, or an object whose three fields
may each be missing / ill-typed (modelled by `Option`). -/
inductive StoredVal where
  | arr (items : List Item)
  | obj (items : Option (List Item)) (allow : Option (List Int))
        (removeMode : Option Bool)
deriving Repr, DecidableEq

/-- The normalized stored form: an object with all three fields present. -/
def storedOfState (s : ScopeState) : StoredVal :=
  StoredVal.obj (some s.items) (some s.allow) (some s.removeMode)

/-- part_009 `getState(cid)`: on a missing entry create the default record;
on a legacy bare array wrap it with default `allow`/`removeMode`; on an
object backfill each missing field.  Returns the canonical state together
with the value written back to `DB[cid]`. -/
def getState : Option StoredVal → ScopeState × StoredVal
  | none =>
      let v : ScopeState := ⟨[], [], false⟩
      (v, storedOfState v)
  | some (StoredVal.arr its) =>
      let v : ScopeState := ⟨its, [], false⟩
      (v, storedOfState v)
  | some (StoredVal.obj its al rm) =>
      let v : ScopeState := ⟨its.getD [], al.getD [], rm.getD false⟩
      (v, storedOfState v)

/-- part_009 `uncheckAll(cid)`: for each item, if `done` set it to `false`;
returns the new items together with `{ changed, count }`. -/
def uncheckAll (items : List Item) : List Item × Bool × Nat :=
  (items.map (fun it => if it.done then ⟨it.text, false⟩ else it),
   items.any (·.done), items.length)

/-- The `/clear` handler of the first variant in `src/checklist.js`:
`DB[cid] = []` — it replaces the scope's item list with the empty list. -/
def clearHandlerJs (_items : List Item) : List Item := []

/-! ### Model of JS `parseInt(s, 10)` -/

/-- Value of a (non-empty) list of decimal digit characters. -/
def digitsToNat (ds : List Char) : Nat :=
  ds.foldl (fun a c => a * 10 + (c.toNat - '0'.toNat)) 0

/-- JS `parseInt(s, 10)`: skip leading whitespace, take an optional sign,
then parse the longest prefix of decimal digits; `none` models `NaN`
(no digits at all). -/
def parseIntJs (s : String) : Option Int :=
  let cs := s.data.dropWhile Char.isWhitespace
  match cs with
  | '-' :: r =>
      let ds := r.takeWhile Char.isDigit
      if ds.isEmpty then none else some (-(digitsToNat ds : Int))
  | '+' :: r =>
      let ds := r.takeWhile Char.isDigit
      if ds.isEmpty then none else some (digitsToNat ds : Int)
  | _ =>
      let ds := cs.takeWhile Char.isDigit
      if ds.isEmpty then none else some (digitsToNat ds : Int)

/-! ### Command handlers (part_009) -/

/-- Outbound reply produced by a handler (message content abstracted to its
kind plus the item text it mentions). -/
inductive Reply where
  | markedDone (text : String)
  | removed (text : String)
  | added (text : String)
  | usageDone
  | usageRemove
  | usageAdd
  | rejectedAdd
deriving Repr, DecidableEq

/-- Result of one command handler: the scope's items after the handler,
the user-visible reply, and whether `saveData` was called. -/
structure HandlerResult where
  items : List Item
  reply : Reply
  saved : Bool
deriving Repr, DecidableEq

/-- The fields of the inbound message a permission check consults:
chat type, the (externally looked-up) admin status of the sender, and the
sender's id (`none` when `msg.from` is absent). -/
structure MsgCtx where
  isPrivate : Bool
  isAdminResult : Bool
  uid : Option Int
deriving Repr, DecidableEq

/-- part_009 `canUserAdd(msg)`: no sender → `false`; private chat → `true`;
admin → `true`; enforcement disabled → `true`; otherwise membership in the
scope's allowlist. -/
def canUserAdd (enforce : Bool) (allow : List Int) (m : MsgCtx) : Bool :=
  match m.uid with
  | none => false
  | some uid =>
    if m.isPrivate then true
    else if m.isAdminResult then true
    else if !enforce then true
    else allow.contains uid

/-- part_009 `/add` handler body: permission check, then trim the argument;
empty → usage reply; otherwise push `{ text, done: false }` and save. -/
def addHandler (enforce : Bool) (allow : List Int) (m : MsgCtx)
    (arg : String) (items : List Item) : HandlerResult :=
  if !(canUserAdd enforce allow m) then ⟨items, Reply.rejectedAdd, false⟩
  else
    let text := arg.trim
    if text.isEmpty then ⟨items, Reply.usageAdd, false⟩
    else ⟨items ++ [⟨text, false⟩], Reply.added text, true⟩

/-- part_009 `/done <n>` handler body: `i = parseInt(arg, 10) - 1`; when
`0 <= i < items.length` set `items[i].done = true` and save, else reply
with the usage message and mutate nothing. -/
def doneHandler (arg : String) (items : List Item) : HandlerResult :=
  match parseIntJs arg with
  | none => ⟨items, Reply.usageDone, false⟩
  | some n =>
    if h : 0 ≤ n - 1 ∧ n - 1 < (items.length : Int) then
      let idx := (n - 1).toNat
      have hidx : idx < items.length := by omega
      ⟨items.set idx ⟨(items.get ⟨idx, hidx⟩).text, true⟩,
       Reply.markedDone (items.get ⟨idx, hidx⟩).text, true⟩
    else ⟨items, Reply.usageDone, false⟩

/-- `splice(i, 1)`: remove the element at index `i`. -/
def removeAt (items : List Item) (i : Nat) : List Item := items.eraseIdx i

/-- part_009 `/remove <n>` handler body: `i = parseInt(arg, 10) - 1`; when
`0 <= i < items.length` splice out `items[i]` and save, else reply with the
usage message.  The source performs NO permission check here; the message
context parameter is ignored exactly as the source ignores `msg.from` for
permissions. -/
def removeHandler (_m : MsgCtx) (arg : String) (items : List Item) :
    HandlerResult :=
  match parseIntJs arg with
  | none => ⟨items, Reply.usageRemove, false⟩
  | some n =>
    if h : 0 ≤ n - 1 ∧ n - 1 < (items.length : Int) then
      let idx := (n - 1).toNat
      have hidx : idx < items.length := by omega
      ⟨removeAt items idx, Reply.removed (items.get ⟨idx, hidx⟩).text, true⟩
    else ⟨items, Reply.usageRemove, false⟩

/-- The inline `t:<i>` callback branch of `src/checklist.js` (and the
non-remove-mode item tap of part_009): `items[i].done = !items[i].done`
guarded by `!isNaN(i) && items[i]`. -/
def toggleItem (items : List Item) (i : Nat) : List Item :=
  match items[i]? with
  | some it => items.set i ⟨it.text, !it.done⟩
  | none => items

/-! ### Durable store (`loadData` / `saveData`) -/

/-- The on-disk JSON document: one stored value per scope id. -/
abbrev Doc := List (String × StoredVal)

/-- Content of an existing file, abstracted to what `JSON.parse` yields on
it: either it throws (`malformed`) or it parses to a document. -/
inductive FileData where
  | malformed
  | parsed (d : Doc)
deriving Repr, DecidableEq

/-- The two paths `saveData`/`loadData` touch: the durable `DATA_PATH`
(`none` = file missing) and the temporary `DATA_PATH + '.tmp'`. -/
structure FS where
  main : Option FileData
  tmp : Option FileData
deriving Repr, DecidableEq

/-- The primitive file-system operations `saveData` performs, each assumed
atomic at the file-system level (`renameSync` in particular). -/
inductive FsOp where
  | writeTmp (d : FileData)
  | renameTmpToMain
deriving Repr, DecidableEq

/-- Effect of one primitive operation on the two paths. -/
def fsStep (fs : FS) : FsOp → FS
  | FsOp.writeTmp d => ⟨fs.main, some d⟩
  | FsOp.renameTmpToMain =>
      match fs.tmp with
      | some d => ⟨some d, none⟩
      | none => fs

/-- Run a sequence of primitive operations. -/
def runOps (fs : FS) (ops : List FsOp) : FS := ops.foldl fsStep fs

/-- `saveData(obj)` as its sequence of primitive operations:
`writeFileSync(tmp, JSON.stringify(obj))` then `renameSync(tmp, DATA_PATH)`.
Serializing a document always yields content that parses back to it. -/
def saveOps (doc : Doc) : List FsOp :=
  [FsOp.writeTmp (FileData.parsed doc), FsOp.renameTmpToMain]

/-- The empty document `{}`. -/
def emptyDoc : Doc := []

/-- `loadData()`: `try { return JSON.parse(readFileSync(DATA_PATH)) }`
`catch { writeFileSync(DATA_PATH, "{}"); return {} }` — a missing file makes
`readFileSync` throw and malformed content makes `JSON.parse` throw; both
land in the catch branch. -/
def loadData (fs : FS) : Doc × FS :=
  match fs.main with
  | some (FileData.parsed d) => (d, fs)
  | some FileData.malformed =>
      (emptyDoc, ⟨some (FileData.parsed emptyDoc), fs.tmp⟩)
  | none =>
      (emptyDoc, ⟨some (FileData.parsed emptyDoc), fs.tmp⟩)

/-! ### DM duty variant (`src/checklist.js`, second part) -/

/-- The hard-coded baseline checklist `BASE_ITEMS`. -/
def BASE_ITEMS : List String :=
  ["Update ration status in COS chat for every meal",
   "Update attendance list",
   "Make sure keypress book is closed properly before HOTO",
   "Make sure all keys are accounted for in keypress",
   "Clear desk policy (inclusive of clearing of shredding tray)",
   "Ensure tidiness in office",
   "Clear trash",
   "Off all relevant switch"]

/-- Per-user state of the DM duty variant:
`{ compact, removeMode, baseDone: boolean[], extra: [{text, done}] }`. -/
structure UserState where
  compact : Bool
  removeMode : Bool
  baseDone : List Bool
  extra : List Item
deriving Repr, DecidableEq

/-- The fresh default state `getUserState` creates for an unknown user. -/
def defaultUserState : UserState :=
  ⟨false, false, BASE_ITEMS.map (fun _ => false), []⟩

/-- The migrate/normalize step of `getUserState`: when `baseDone` has the
wrong length, rebuild it as `BASE_ITEMS.map((_, i) => Boolean(old[i]))`
(out-of-range reads give `undefined`, i.e. `false`). -/
def normalizeUser (st : UserState) : UserState :=
  if st.baseDone.length = BASE_ITEMS.length then st
  else ⟨st.compact, st.removeMode,
        (List.range BASE_ITEMS.length).map (fun i => st.baseDone.getD i false),
        st.extra⟩

/-- Is `c` a JS `\w` word character (`[A-Za-z0-9_]`)? -/
def isWordChar (c : Char) : Bool :=
  (('a' ≤ c && c ≤ 'z') || ('A' ≤ c && c ≤ 'Z') ||
   ('0' ≤ c && c ≤ '9') || c = '_')

/-- The numeric-tap pattern of the DM handler, `/^\s*#?(\d+)\b/`:
optional leading whitespace, an optional `#`, then at least one digit whose
run is followed by a word boundary.  Returns the captured number. -/
def numericTap (s : String) : Option Nat :=
  let cs := s.data.dropWhile Char.isWhitespace
  let cs := match cs with
    | '#' :: r => r
    | _ => cs
  let ds := cs.takeWhile Char.isDigit
  if ds.isEmpty then none
  else
    match cs.drop ds.length with
    | [] => some (digitsToNat ds)
    | c :: _ => if isWordChar c then none else some (digitsToNat ds)

/-- An inbound DM message, as far as the handler's branches consult it:
its text and whether it is a reply to the bot's add prompt
(`reply_to_message.text` matching `/Send the extra task text:/`). -/
structure DmMsg where
  text : String
  replyToAddPrompt : Bool
deriving Repr, DecidableEq

/-- `resetChecksForUser`: all base flags and all extra `done` to `false`. -/
def resetChecksForUser (st : UserState) : UserState :=
  ⟨st.compact, st.removeMode, BASE_ITEMS.map (fun _ => false),
   st.extra.map (fun it => ⟨it.text, false⟩)⟩

/-- The free-text fallback at the end of the DM handler: trim, and when
non-empty push an extra `{ text, done: false }`. -/
def freeTextAdd (st : UserState) (text : String) : UserState :=
  if text.trim.isEmpty then st
  else ⟨st.compact, st.removeMode, st.baseDone,
        st.extra ++ [⟨text.trim, false⟩]⟩

/-- The numeric-tap branch of the DM handler for the captured number `n`
(`idx0 = n - 1`): a base index toggles the base flag; an extra index
toggles or — in remove mode — splices the extra item; outside both ranges
the handler falls through to the free-text fallback. -/
def dmNumericAction (st : UserState) (text : String) (n : Nat) : UserState :=
  if 0 ≤ (n : Int) - 1 ∧ (n : Int) - 1 < (BASE_ITEMS.length : Int) then
    ⟨st.compact, st.removeMode,
     st.baseDone.set ((n : Int) - 1).toNat
       (!(st.baseDone.getD ((n : Int) - 1).toNat false)), st.extra⟩
  else if (BASE_ITEMS.length : Int) ≤ (n : Int) - 1 ∧
      (n : Int) - 1 < (BASE_ITEMS.length : Int) + (st.extra.length : Int)
      then
    if st.removeMode then
      ⟨st.compact, st.removeMode, st.baseDone,
       st.extra.eraseIdx (((n : Int) - 1).toNat - BASE_ITEMS.length)⟩
    else
      ⟨st.compact, st.removeMode, st.baseDone,
       st.extra.set (((n : Int) - 1).toNat - BASE_ITEMS.length)
         ⟨(st.extra.getD (((n : Int) - 1).toNat - BASE_ITEMS.length)
             default).text,
          !(st.extra.getD (((n : Int) - 1).toNat - BASE_ITEMS.length)
             default).done⟩⟩
  else freeTextAdd st text

/-- The DM `message` handler of the duty variant, as a state transition on
the (already normalized) user state.  Branches, in source order: the five
reply-keyboard buttons and the add prompt, the force-reply add, the numeric
tap, and the free-text fallback. -/
def handleDm (st : UserState) (m : DmMsg) : UserState :=
  if m.text = "🔄 Refresh" then st
  else if m.text = "🧹 Clear checks" then resetChecksForUser st
  else if m.text = "📋 Compact view" then
    ⟨true, st.removeMode, st.baseDone, st.extra⟩
  else if m.text = "📝 Full view" then
    ⟨false, st.removeMode, st.baseDone, st.extra⟩
  else if m.text = "🗑 Remove mode" then
    ⟨st.compact, true, st.baseDone, st.extra⟩
  else if m.text = "✅ Done removing" then
    ⟨st.compact, false, st.baseDone, st.extra⟩
  else if m.text = "➕ Add" then st
  else if m.replyToAddPrompt then
    if m.text.trim.isEmpty then st
    else ⟨st.compact, st.removeMode, st.baseDone,
          st.extra ++ [⟨m.text.trim, false⟩]⟩
  else
    match numericTap m.text with
    | some n => dmNumericAction st m.text n
    | none => freeTextAdd st m.text

/-! ### Concrete fixtures used by witnesses and counterexamples -/

/-- The spec's two-item example list. -/
def exPair : List Item := [⟨"Buy milk", true⟩, ⟨"Walk dog", false⟩]

/-- The spec's `[A, B, C]` example list. -/
def exItems3 : List Item := [⟨"A", false⟩, ⟨"B", true⟩, ⟨"C", false⟩]

/-- A principal who is neither an administrator nor allowlisted, acting in
a multi-party (non-private) scope. -/
def outsiderCtx : MsgCtx := ⟨false, false, some 42⟩

/-! ### Helper lemmas -/

/-- Writing back the element already at a valid index is the identity. -/
theorem set_get_self {α : Type _} (l : List α) (i : Nat) (h : i < l.length) :
    l.set i (l.get ⟨i, h⟩) = l := by
  induction l generalizing i with
  | nil => simp at h
  | cons a t ih =>
    cases i with
    | zero => rfl
    | succ j => simpa using ih j (by simpa using h)

/-! ### Claims -/

/-- C1 (amended): part_009's clear-checks operation `uncheckAll` keeps the
item count, keeps every text in the same order, and sets every `done` flag
to `false` — it never deletes items. -/
theorem spec_c1_uncheckAll_preserves (items : List Item) :
    (uncheckAll items).1.length = items.length ∧
    (uncheckAll items).1.map Item.text = items.map Item.text ∧
    (uncheckAll items).1.map Item.done = items.map (fun _ => false) := by
  refine ⟨by simp [uncheckAll], ?_, ?_⟩ <;>
    · induction items with
      | nil => rfl
      | cons a t ih =>
        by_cases h : a.done <;>
          simp only [uncheckAll, List.map_cons, h, if_true, if_false,
            List.cons.injEq] at ih ⊢ <;>
          exact ⟨by simp [h], ih⟩

/-- C1 counterexample: the `/clear` handler of the first `src/checklist.js`
variant deletes the items — on the spec's two-item example the resulting
sequence does not have the same length. -/
theorem spec_c1_cex_clear_deletes :
    ¬ ((clearHandlerJs exPair).length = exPair.length) := by decide

/-- C3: `getState` on a scope stored as a bare array returns that array as
`items` with `allow = []` and `removeMode = false`, and calling it again on
the value it wrote back yields the identical result. -/
theorem spec_c3_legacy_migration (l : List Item) :
    (getState (some (StoredVal.arr l))).1.items = l ∧
    (getState (some (StoredVal.arr l))).1.allow = [] ∧
    (getState (some (StoredVal.arr l))).1.removeMode = false ∧
    getState (some ((getState (some (StoredVal.arr l))).2)) =
      getState (some (StoredVal.arr l)) :=
  ⟨rfl, rfl, rfl, rfl⟩

/-- C5: at a valid index, the item-selector toggle applied twice restores
the original list (in particular item `i`'s original `done` value), and a
single toggle leaves every text in the same order. -/
theorem spec_c5_toggle_involution (items : List Item) (i : Nat)
    (h : i < items.length) :
    toggleItem (toggleItem items i) i = items ∧
    (toggleItem items i).map Item.text = items.map Item.text := by
  have h1 : items[i]? = some (items.get ⟨i, h⟩) := by
    simp [List.getElem?_eq_getElem h]
  have hset : ∀ a : Item, (items.set i a)[i]? = some a := fun a =>
    List.getElem?_set_self (by simpa using h)
  constructor
  · simp only [toggleItem, h1]
    rw [hset ⟨(items.get ⟨i, h⟩).text, !(items.get ⟨i, h⟩).done⟩]
    simp only [List.set_set, Bool.not_not]
    exact set_get_self items i h
  · simp only [toggleItem, h1, List.map_set]
    have hm : i < (items.map Item.text).length := by simpa using h
    have : (items.map Item.text).get ⟨i, hm⟩ = (items.get ⟨i, h⟩).text := by
      simp
    rw [← this]
    exact set_get_self _ i hm

/-- C5 witness at a concrete valid index. -/
theorem spec_c5_witness :
    toggleItem (toggleItem exPair 0) 0 = exPair ∧
    (toggleItem exPair 0).map Item.text = exPair.map Item.text :=
  spec_c5_toggle_involution exPair 0 (by decide)

/-- C6: removing a valid index `i` deletes exactly that item (take/drop
decomposition), shrinks the list by one, and contiguously renumbers: every
item formerly at `j + 1 ≥ i + 1` is now addressable at `j`. -/
theorem spec_c6_remove_renumbers (items : List Item) (i : Nat)
    (h : i < items.length) :
    removeAt items i = items.take i ++ items.drop (i + 1) ∧
    (removeAt items i).length + 1 = items.length ∧
    ∀ j, i ≤ j → (removeAt items i)[j]? = items[j + 1]? := by
  refine ⟨List.eraseIdx_eq_take_drop_succ items i, ?_, ?_⟩
  · simp only [removeAt, List.length_eraseIdx, if_pos h]
    omega
  · intro j hj
    exact List.getElem?_eraseIdx_of_ge items i j hj

/-- C6 witness on the spec's `[A, B, C]` example: removing index 1 yields
`[A, C]` and former index 2 (`C`) is now addressable at index 1. -/
theorem spec_c6_witness :
    removeAt exItems3 1 = exItems3.take 1 ++ exItems3.drop 2 ∧
    (removeAt exItems3 1)[1]? = exItems3[2]? :=
  ⟨(spec_c6_remove_renumbers exItems3 1 (by decide)).1,
   (spec_c6_remove_renumbers exItems3 1 (by decide)).2.2 1 (by decide)⟩

/-- C2 (amended): with allowlist enforcement on, an add attempt in a
multi-party scope by a principal who is neither an administrator nor in the
allow set is rejected: `canUserAdd` is `false`, the items are unchanged, a
rejection reply is produced, and nothing is saved.  (Remove attempts are
not gated — see the counterexample.) -/
theorem spec_c2_add_blocked (allow : List Int) (m : MsgCtx) (u : Int)
    (hpriv : m.isPrivate = false) (hadm : m.isAdminResult = false)
    (huid : m.uid = some u) (hmem : u ∉ allow)
    (arg : String) (items : List Item) :
    canUserAdd true allow m = false ∧
    addHandler true allow m arg items = ⟨items, Reply.rejectedAdd, false⟩ := by
  have hc : canUserAdd true allow m = false := by
    simp [canUserAdd, huid, hpriv, hadm, hmem]
  exact ⟨hc, by simp [addHandler, hc]⟩

/-- C2 witness: a concrete blocked add attempt. -/
theorem spec_c2_witness :
    canUserAdd true [7] outsiderCtx = false ∧
    addHandler true [7] outsiderCtx "task" exPair =
      ⟨exPair, Reply.rejectedAdd, false⟩ :=
  spec_c2_add_blocked [7] outsiderCtx 42 rfl rfl rfl (by decide) "task" exPair

/-- C2 counterexample: the part_009 `/remove` handler performs no
permission check, so the same non-admin, non-allowlisted principal's remove
attempt at a valid index mutates the items and persists. -/
theorem spec_c2_cex_remove_not_gated :
    (removeHandler outsiderCtx "2" exItems3).items ≠ exItems3 ∧
    (removeHandler outsiderCtx "2" exItems3).saved = true := by decide

/-- C4: `saveData` writes the temp file and then renames it over the
durable path; at every crash point strictly before the rename the durable
path still holds the previous content, and the completed sequence leaves
the serialized document there. -/
theorem spec_c4_atomic_save (fs : FS) (doc : Doc) (k : Nat)
    (hk : k < (saveOps doc).length) :
    (runOps fs ((saveOps doc).take k)).main = fs.main ∧
    (runOps fs (saveOps doc)).main = some (FileData.parsed doc) := by
  refine ⟨?_, rfl⟩
  match k with
  | 0 => rfl
  | 1 => rfl
  | k + 2 => simp [saveOps] at hk

/-- C4 witness at the crash point between temp-write and rename. -/
theorem spec_c4_witness :
    (runOps ⟨some (FileData.parsed [("1", StoredVal.arr exPair)]), none⟩
        ((saveOps emptyDoc).take 1)).main =
      (FS.mk (some (FileData.parsed [("1", StoredVal.arr exPair)])) none).main ∧
    (runOps ⟨some (FileData.parsed [("1", StoredVal.arr exPair)]), none⟩
        (saveOps emptyDoc)).main = some (FileData.parsed emptyDoc) :=
  spec_c4_atomic_save ⟨some (FileData.parsed [("1", StoredVal.arr exPair)]),
    none⟩ emptyDoc 1 (by decide)

/-- C7: when the argument of `/done` or `/remove` parses to no number
(`NaN`) or to an index outside `1..items.length`, both handlers leave the
items unchanged, reply with the usage message, and save nothing. -/
theorem spec_c7_out_of_range_noop (arg : String) (items : List Item)
    (m : MsgCtx)
    (h : ∀ n, parseIntJs arg = some n →
      ¬(1 ≤ n ∧ n ≤ (items.length : Int))) :
    doneHandler arg items = ⟨items, Reply.usageDone, false⟩ ∧
    removeHandler m arg items = ⟨items, Reply.usageRemove, false⟩ := by
  constructor
  · unfold doneHandler
    split
    · rfl
    · rename_i n hp
      have hcond : ¬(0 ≤ n - 1 ∧ n - 1 < (items.length : Int)) := by
        intro hc
        exact h n hp ⟨by omega, by omega⟩
      rw [dif_neg hcond]
  · unfold removeHandler
    split
    · rfl
    · rename_i n hp
      have hcond : ¬(0 ≤ n - 1 ∧ n - 1 < (items.length : Int)) := by
        intro hc
        exact h n hp ⟨by omega, by omega⟩
      rw [dif_neg hcond]

/-- C7 witness: index 99 on the 3-item example list. -/
theorem spec_c7_witness :
    doneHandler "99" exItems3 = ⟨exItems3, Reply.usageDone, false⟩ ∧
    removeHandler outsiderCtx "99" exItems3 =
      ⟨exItems3, Reply.usageRemove, false⟩ :=
  spec_c7_out_of_range_noop "99" exItems3 outsiderCtx (by
    intro n hn
    rw [show parseIntJs "99" = some 99 from by decide] at hn
    injection hn with h99
    simp only [show exItems3.length = 3 from rfl]
    omega)

/-- C8: `loadData` never throws: on a file that parses it returns the
parsed document and touches nothing; on a missing file or malformed
content it returns the empty document and rewrites the durable file to
that empty document. -/
theorem spec_c8_load_recovers (d : Doc) (t : Option FileData) :
    loadData ⟨some (FileData.parsed d), t⟩ =
      (d, ⟨some (FileData.parsed d), t⟩) ∧
    loadData ⟨none, t⟩ = (emptyDoc, ⟨some (FileData.parsed emptyDoc), t⟩) ∧
    loadData ⟨some FileData.malformed, t⟩ =
      (emptyDoc, ⟨some (FileData.parsed emptyDoc), t⟩) :=
  ⟨rfl, rfl, rfl⟩

/-- On a valid argument, `/done` sets `done := true` at the addressed index
(and nothing else). -/
theorem doneHandler_valid (arg : String) (items : List Item) (n : Int)
    (hp : parseIntJs arg = some n) (h1 : 1 ≤ n)
    (h2 : n ≤ (items.length : Int)) :
    (doneHandler arg items).items =
      items.set (n - 1).toNat
        ⟨(items.get ⟨(n - 1).toNat, by omega⟩).text, true⟩ := by
  unfold doneHandler
  split
  · rename_i hnone
    rw [hp] at hnone
    cases hnone
  · rename_i n' hp'
    rw [hp] at hp'
    cases hp'
    rw [dif_pos ⟨by omega, by omega⟩]

/-- C9: the explicit `/done N` command is idempotent — applying it twice at
the same valid index yields the same items as applying it once — and it
never resets a `done` flag: every item already done stays done. -/
theorem spec_c9_done_idempotent (arg : String) (items : List Item) (n : Int)
    (hp : parseIntJs arg = some n) (h1 : 1 ≤ n)
    (h2 : n ≤ (items.length : Int)) :
    (doneHandler arg (doneHandler arg items).items).items =
      (doneHandler arg items).items ∧
    ∀ j : Nat, items[j]?.map Item.done = some true →
      ((doneHandler arg items).items)[j]?.map Item.done = some true := by
  have hidx : (n - 1).toNat < items.length := by omega
  have e1 := doneHandler_valid arg items n hp h1 h2
  constructor
  · have hlen :
        ((doneHandler arg items).items.length : Int) = (items.length : Int) := by
      rw [e1]; simp
    have e2 := doneHandler_valid arg (doneHandler arg items).items n hp h1
      (by omega)
    rw [e2]
    simp only [e1, List.get_eq_getElem, List.getElem_set_self, List.set_set]
  · intro j hj
    rw [e1]
    by_cases hji : j = (n - 1).toNat
    · subst hji
      rw [List.getElem?_set_self hidx]
      rfl
    · rw [List.getElem?_set_ne (fun he => hji he.symm)]
      exact hj

/-- C9 witness: `/done 2` applied twice on the example list. -/
theorem spec_c9_witness :
    (doneHandler "2" (doneHandler "2" exItems3).items).items =
      (doneHandler "2" exItems3).items ∧
    ∀ j : Nat, exItems3[j]?.map Item.done = some true →
      ((doneHandler "2" exItems3).items)[j]?.map Item.done = some true :=
  spec_c9_done_idempotent "2" exItems3 2 (by decide) (by decide)
    (by simp only [show exItems3.length = 3 from rfl]; omega)

/-- `normalizeUser` always yields a `baseDone` of the baseline's length. -/
theorem normalizeUser_length (st : UserState) :
    (normalizeUser st).baseDone.length = BASE_ITEMS.length := by
  unfold normalizeUser
  split
  · assumption
  · simp

/-- The free-text fallback never touches the base flags. -/
theorem freeTextAdd_baseDone (st : UserState) (t : String) :
    (freeTextAdd st t).baseDone = st.baseDone := by
  unfold freeTextAdd
  split <;> rfl

/-- The free-text fallback never shrinks the extra list. -/
theorem freeTextAdd_extra_ge (st : UserState) (t : String) :
    st.extra.length ≤ (freeTextAdd st t).extra.length := by
  unfold freeTextAdd
  split <;> simp

/-- The numeric-tap branch keeps `baseDone` at the baseline's length. -/
theorem dmNumericAction_baseDone_length (st : UserState) (t : String)
    (n : Nat) (hlen : st.baseDone.length = BASE_ITEMS.length) :
    (dmNumericAction st t n).baseDone.length = BASE_ITEMS.length := by
  unfold dmNumericAction
  split_ifs
  all_goals try simp only [List.length_set]
  all_goals try rw [freeTextAdd_baseDone]
  all_goals exact hlen

/-- The numeric-tap branch shrinks the extra list only in remove mode and
then by erasing one index. -/
theorem dmNumericAction_extra_shrink (st : UserState) (t : String)
    (n : Nat) :
    (dmNumericAction st t n).extra.length < st.extra.length →
    st.removeMode = true ∧
    ∃ j, (dmNumericAction st t n).extra = st.extra.eraseIdx j := by
  unfold dmNumericAction
  split_ifs with h1 h2 h3
  · intro hlt
    exact absurd hlt (lt_irrefl _)
  · intro hlt
    exact ⟨h3, _, rfl⟩
  · intro hlt
    simp only [List.length_set] at hlt
    exact absurd hlt (lt_irrefl _)
  · intro hlt
    exact absurd hlt (not_lt.mpr (freeTextAdd_extra_ge st t))

/-- Every branch of the DM handler keeps `baseDone` at the baseline's
length. -/
theorem handleDm_baseDone_length (st : UserState) (m : DmMsg)
    (hlen : st.baseDone.length = BASE_ITEMS.length) :
    (handleDm st m).baseDone.length = BASE_ITEMS.length := by
  unfold handleDm
  split_ifs
  · exact hlen
  · simp only [resetChecksForUser, List.length_map]
  · exact hlen
  · exact hlen
  · exact hlen
  · exact hlen
  · exact hlen
  · exact hlen
  · exact hlen
  · split
    · exact dmNumericAction_baseDone_length st m.text _ hlen
    · rw [freeTextAdd_baseDone]
      exact hlen

set_option maxHeartbeats 2000000 in
/-- The DM handler shrinks the extra list only in remove mode, and then by
erasing one index of the extra list. -/
theorem handleDm_extra_shrink (st : UserState) (m : DmMsg) :
    (handleDm st m).extra.length < st.extra.length →
    st.removeMode = true ∧
    ∃ j, (handleDm st m).extra = st.extra.eraseIdx j := by
  unfold handleDm
  split_ifs
  · intro hlt
    exact absurd hlt (lt_irrefl _)
  · intro hlt
    refine absurd hlt ?_
    simp only [resetChecksForUser, List.length_map]
    exact lt_irrefl _
  · intro hlt
    exact absurd hlt (lt_irrefl _)
  · intro hlt
    exact absurd hlt (lt_irrefl _)
  · intro hlt
    exact absurd hlt (lt_irrefl _)
  · intro hlt
    exact absurd hlt (lt_irrefl _)
  · intro hlt
    exact absurd hlt (lt_irrefl _)
  · intro hlt
    exact absurd hlt (lt_irrefl _)
  · intro hlt
    refine absurd hlt ?_
    simp only [List.length_append, List.length_cons, List.length_nil]
    omega
  · split
    · exact dmNumericAction_extra_shrink st m.text _
    · intro hlt
      exact absurd hlt (not_lt.mpr (freeTextAdd_extra_ge st m.text))

/-- C10: in the DM duty variant, after any message-handler event on a
normalized user state the `baseDone` array still has exactly the length of
the hard-coded `BASE_ITEMS`, and the extra list shrinks only in remove
mode and only by deleting one extra item — no reachable operation removes
a base item. -/
theorem spec_c10_dm_base_preserved (raw : UserState) (m : DmMsg) :
    (handleDm (normalizeUser raw) m).baseDone.length = BASE_ITEMS.length ∧
    ((handleDm (normalizeUser raw) m).extra.length <
        (normalizeUser raw).extra.length →
      (normalizeUser raw).removeMode = true ∧
      ∃ j, (handleDm (normalizeUser raw) m).extra =
        (normalizeUser raw).extra.eraseIdx j) :=
  ⟨handleDm_baseDone_length (normalizeUser raw) m (normalizeUser_length raw),
   handleDm_extra_shrink (normalizeUser raw) m⟩

/-- C10 witness: a remove-mode tap on the first extra item (index 9 over
the 8 base items) deletes exactly that extra item. -/
theorem spec_c10_witness :
    (normalizeUser ⟨false, true, BASE_ITEMS.map (fun _ => false),
        [⟨"ex", false⟩]⟩).removeMode = true ∧
    ∃ j, (handleDm (normalizeUser ⟨false, true,
        BASE_ITEMS.map (fun _ => false), [⟨"ex", false⟩]⟩)
          ⟨"9", false⟩).extra =
      (normalizeUser ⟨false, true, BASE_ITEMS.map (fun _ => false),
        [⟨"ex", false⟩]⟩).extra.eraseIdx j :=
  (spec_c10_dm_base_preserved ⟨false, true, BASE_ITEMS.map (fun _ => false),
    [⟨"ex", false⟩]⟩ ⟨"9", false⟩).2 (by decide)

end Checklist
